import Mathlib

/-!
# Verification of the `authmiddleware` authorization cascade

A shallow embedding of `authmiddleware.go` (package `authmiddleware`): an
HTTP middleware that decides per request whether the caller is authorized.

Modelling choices:
* External collaborators (`bearertoken.CheckToken`, `wso2jwt.Validate`,
  `ad.GetGroupsForUser`, the CAS session functions) are passed as function
  parameters: the code depends only on their result contracts.
* A Go `(bool, error)` pair is modelled as `Bool × Option String`
  (`none` = `nil` error, `some msg` = a non-nil error with message `msg`).
* `http.Header.Get` returns `""` when the header is absent, so a request is
  modelled by the two header strings the code reads.
* Process environment variables read via `os.Getenv` are fields of an
  `Env` value. `os.Getenv` is called inside the per-request handler, so
  `Env` is a parameter of each per-request function.
* The HTTP side effects (writing a 400 JSON response, serving the wrapped
  handler, redirecting to CAS login) are recorded as a trace: a `List`
  of `Action` values in the order the Go code performs the writes.
-/

namespace Authmiddleware

/-- The two request headers read by the middleware; `http.Header.Get`
yields `""` for an absent header. -/
structure Request where
  authorization : String
  xJwtAssertion : String
deriving DecidableEq, Repr

/-- The environment variables read by the middleware (`os.Getenv` yields
`""` for an unset variable). -/
structure Env where
  LOCAL_ENVIRONMENT : String
  GEN_CONTROL_GROUPS : String
deriving DecidableEq, Repr

/-- An observable HTTP effect of the middleware: write a 400 JSON response
with a message (`jsonresp.New(w, http.StatusBadRequest, msg)`), invoke the
wrapped handler (`next.ServeHTTP`), or redirect to the CAS login flow
(`cas.RedirectToLogin`). -/
inductive Action where
  | respond400 (msg : String)
  | serveNext
  | redirectToLogin
deriving DecidableEq, Repr

/-- Go `strings.EqualFold` restricted to its use here: for the ASCII
literal `"Bearer"`, Unicode simple folding coincides with ASCII
lower-casing on both sides. -/
def equalFold (s t : String) : Bool :=
  s.toLower == t.toLower

/-- `checkLocal` (authmiddleware.go:104-114): authorized iff the
`LOCAL_ENVIRONMENT` environment variable is non-empty. -/
def checkLocal (env : Env) : Bool × Option String :=
  if env.LOCAL_ENVIRONMENT.length > 0 then (true, none)
  else (false, none)

/-- `checkBearerToken` (authmiddleware.go:116-141). `checkToken` stands for
the external `bearertoken.CheckToken` verifier, applied to the second part
of the `Authorization` header. -/
def checkBearerToken (checkToken : String → Bool × Option String)
    (request : Request) : Bool × Option String :=
  let token := request.authorization
  if token.length > 0 then
    let parts := token.splitOn " "
    if parts.length != 2 || !equalFold (parts.headD "") "Bearer" then
      (false, some "Bad Authorization header")
    else
      match checkToken (parts.getD 1 "") with
      | (_, some e) => (false, some e)
      | (valid, none) =>
        if valid then (true, none)
        else (false, none)
  else (false, none)

/-- `checkWSO2` (authmiddleware.go:143-163). `validate` stands for the
external `wso2jwt.Validate` verifier, applied to the `X-jwt-assertion`
header. -/
def checkWSO2 (validate : String → Bool × Option String)
    (request : Request) : Bool × Option String :=
  let token := request.xJwtAssertion
  if token.length > 0 then
    match validate token with
    | (_, some e) => (false, some e)
    | (valid, none) =>
      if valid then (true, none)
      else (false, none)
  else (false, none)

/-- `MachineChecks` (authmiddleware.go:76-102): the cascade of the three
machine-level checks, each step returning early on a non-nil error or on
success. -/
def MachineChecks (env : Env) (checkToken : String → Bool × Option String)
    (validate : String → Bool × Option String) (request : Request) :
    Bool × Option String :=
  match checkLocal env with
  | (passed, some e) => (passed, some e)
  | (passed, none) =>
    if passed then (passed, none)
    else
      match checkBearerToken checkToken request with
      | (passed, some e) => (passed, some e)
      | (passed, none) =>
        if passed then (passed, none)
        else
          match checkWSO2 validate request with
          | (passed, some e) => (passed, some e)
          | (passed, none) =>
            if passed then (passed, none)
            else (passed, none)

/-- `PassGatekeeper` (authmiddleware.go:167-182). `getGroupsForUser`
stands for the external `ad.GetGroupsForUser` directory lookup; on a
lookup error the function returns `false` unconditionally, otherwise it
scans `control × ADGroups` for an equal pair. -/
def PassGatekeeper (getGroupsForUser : String → Except String (List String))
    (user : String) (control : List String) : Bool :=
  match getGroupsForUser user with
  | .error _ => false
  | .ok ADGroups => control.any fun c => ADGroups.any fun g => c == g

/-- `Authenticate` (authmiddleware.go:20-36), the machine-only middleware:
the trace of HTTP effects the handler performs on one request. -/
def Authenticate (env : Env) (checkToken : String → Bool × Option String)
    (validate : String → Bool × Option String) (request : Request) :
    List Action :=
  match MachineChecks env checkToken validate request with
  | (_, some e) => [.respond400 e]
  | (passed, none) =>
    if passed then [.serveNext]
    else [.respond400 "Not authorized"]

/-- `AuthenticateUser` (authmiddleware.go:39-73), the user-capable
middleware. `isAuthenticated` and `username` stand for `cas.IsAuthenticated`
and `cas.Username`. The Go body has no `return` after the
`next.ServeHTTP` calls; the subsequent statements are guarded by
`if !passed` / `if !access`, which the trace reproduces by concatenating
each conditional write in source order. -/
def AuthenticateUser (env : Env) (checkToken : String → Bool × Option String)
    (validate : String → Bool × Option String)
    (isAuthenticated : Request → Bool) (username : Request → String)
    (getGroupsForUser : String → Except String (List String))
    (r : Request) : List Action :=
  match MachineChecks env checkToken validate r with
  | (_, some e) => [.respond400 e]
  | (passed, none) =>
    (if passed then [Action.serveNext] else []) ++
    (if !passed then
      if !isAuthenticated r then [Action.redirectToLogin]
      else
        let control := (env.GEN_CONTROL_GROUPS).splitOn ", "
        let access := PassGatekeeper getGroupsForUser (username r) control
        (if access then [Action.serveNext] else []) ++
        (if !access then [Action.respond400 "Not authorized"] else [])
    else [])

/-- The short-circuiting cascade discipline over a list of check results:
a non-nil error halts with that result, `(true, nil)` halts with success,
`(false, nil)` continues; an exhausted list denies cleanly. -/
def cascade : List (Bool × Option String) → Bool × Option String
  | [] => (false, none)
  | v :: rest =>
    match v with
    | (passed, some e) => (passed, some e)
    | (true, none) => (true, none)
    | (false, none) => cascade rest

/-- C1: `MachineChecks` runs environment-bypass, bearer-token and federated
JWT checks in that fixed order under the short-circuiting cascade
discipline: a non-nil error from any check halts the cascade with that
error, `(true, nil)` halts with success, and `(false, nil)` continues to
the next check. -/
theorem machineChecks_eq_cascade (env : Env)
    (checkToken validate : String → Bool × Option String) (r : Request) :
    MachineChecks env checkToken validate r =
      cascade [checkLocal env, checkBearerToken checkToken r,
               checkWSO2 validate r] := by
  unfold MachineChecks
  rcases checkLocal env with ⟨p1, e1⟩
  rcases checkBearerToken checkToken r with ⟨p2, e2⟩
  rcases checkWSO2 validate r with ⟨p3, e3⟩
  rcases e1 with _ | e1 <;> rcases e2 with _ | e2 <;> rcases e3 with _ | e3 <;>
    cases p1 <;> cases p2 <;> cases p3 <;> simp [cascade]

/-- C4: with the `LOCAL_ENVIRONMENT` variable non-empty, `MachineChecks`
returns `(true, nil)` for every request and every pair of verifiers — the
bearer and JWT verifiers are never consulted (the result is the same for
all of them). -/
theorem machineChecks_local_bypass (env : Env)
    (checkToken validate : String → Bool × Option String) (r : Request)
    (h : 0 < env.LOCAL_ENVIRONMENT.length) :
    MachineChecks env checkToken validate r = (true, none) := by
  unfold MachineChecks checkLocal
  simp [h]

theorem machineChecks_local_bypass_witness :
    MachineChecks ⟨"1", ""⟩ (fun _ => (false, some "verifier down"))
      (fun _ => (false, some "verifier down")) ⟨"garbage", "garbage"⟩ =
      (true, none) :=
  machineChecks_local_bypass ⟨"1", ""⟩ _ _ _ (by decide)

/-- C5: with the environment bypass unset and neither an `Authorization`
header nor an `X-jwt-assertion` header present, `MachineChecks` returns a
clean denial `(false, nil)`, never an error. -/
theorem machineChecks_no_credentials (env : Env)
    (checkToken validate : String → Bool × Option String) (r : Request)
    (hl : env.LOCAL_ENVIRONMENT = "") (ha : r.authorization = "")
    (hx : r.xJwtAssertion = "") :
    MachineChecks env checkToken validate r = (false, none) := by
  unfold MachineChecks checkLocal checkBearerToken checkWSO2
  simp [hl, ha, hx]

theorem machineChecks_no_credentials_witness :
    MachineChecks ⟨"", "g1"⟩ (fun _ => (false, some "verifier down"))
      (fun _ => (false, some "verifier down")) ⟨"", ""⟩ = (false, none) :=
  machineChecks_no_credentials ⟨"", "g1"⟩ _ _ ⟨"", ""⟩ rfl rfl rfl

/-! `String.splitOnAux` is defined by well-founded recursion, so concrete
splits are evaluated by unfolding its equation step by step. -/

theorem splitOn_space_xyz : "xyz".splitOn " " = ["xyz"] := by
  unfold String.splitOn
  rw [if_neg (by decide)]
  rw [String.splitOnAux.eq_def, if_neg (by decide), if_neg (by decide)]
  rw [String.splitOnAux.eq_def, if_neg (by decide), if_neg (by decide)]
  rw [String.splitOnAux.eq_def, if_neg (by decide), if_neg (by decide)]
  rw [String.splitOnAux.eq_def, if_pos (by decide)]
  decide

theorem splitOn_commaSpace_empty : "".splitOn ", " = [""] := by
  unfold String.splitOn
  rw [if_neg (by decide)]
  rw [String.splitOnAux.eq_def, if_pos (by decide)]
  decide

theorem splitOn_commaSpace_g : "g".splitOn ", " = ["g"] := by
  unfold String.splitOn
  rw [if_neg (by decide)]
  rw [String.splitOnAux.eq_def, if_neg (by decide), if_neg (by decide)]
  rw [String.splitOnAux.eq_def, if_pos (by decide)]
  decide

theorem splitOn_commaSpace_x : "x".splitOn ", " = ["x"] := by
  unfold String.splitOn
  rw [if_neg (by decide)]
  rw [String.splitOnAux.eq_def, if_neg (by decide), if_neg (by decide)]
  rw [String.splitOnAux.eq_def, if_pos (by decide)]
  decide

/-- C2: a present but syntactically invalid `Authorization` header — not
exactly two space-separated parts, or a first part not case-insensitively
equal to `Bearer` — makes `checkBearerToken` return the hard error
`Bad Authorization header` (never a silent `(false, nil)` denial), and in
machine-only mode, with the environment bypass unset, the client receives
a 400 response carrying that message. -/
theorem checkBearerToken_malformed (checkToken : String → Bool × Option String)
    (r : Request) (hpresent : 0 < r.authorization.length)
    (hmal : (r.authorization.splitOn " ").length ≠ 2 ∨
      equalFold ((r.authorization.splitOn " ").headD "") "Bearer" = false) :
    checkBearerToken checkToken r = (false, some "Bad Authorization header") ∧
    ∀ (env : Env) (validate : String → Bool × Option String),
      env.LOCAL_ENVIRONMENT = "" →
      Authenticate env checkToken validate r =
        [Action.respond400 "Bad Authorization header"] := by
  have hcond : ((r.authorization.splitOn " ").length != 2
      || !equalFold ((r.authorization.splitOn " ").headD "") "Bearer") = true := by
    rcases hmal with h | h
    · simp [h]
    · cases hsp : r.authorization.splitOn " " with
      | nil => simp
      | cons a t =>
        rw [hsp] at h
        have h2 : equalFold a "Bearer" = false := h
        simp [List.headD, h2]
  have hbearer :
      checkBearerToken checkToken r = (false, some "Bad Authorization header") := by
    simp only [checkBearerToken]
    rw [if_pos hpresent, if_pos hcond]
  refine ⟨hbearer, fun env validate hl => ?_⟩
  simp [Authenticate, MachineChecks, checkLocal, hl, hbearer]

theorem checkBearerToken_malformed_witness :
    checkBearerToken (fun _ => (true, none)) ⟨"xyz", ""⟩ =
      (false, some "Bad Authorization header") ∧
    Authenticate ⟨"", ""⟩ (fun _ => (true, none)) (fun _ => (true, none))
        ⟨"xyz", ""⟩ = [Action.respond400 "Bad Authorization header"] := by
  have h := checkBearerToken_malformed (fun _ => (true, none)) ⟨"xyz", ""⟩
    (by decide) (Or.inl (by rw [splitOn_space_xyz]; decide))
  exact ⟨h.1, h.2 ⟨"", ""⟩ (fun _ => (true, none)) rfl⟩

/-- C3: `PassGatekeeper` returns `true` iff the group list resolved for
the username and the allow-list share at least one element; when the
directory lookup fails with an error it returns `false` (fail-closed),
never surfacing an error. -/
theorem passGatekeeper_spec
    (getGroupsForUser : String → Except String (List String))
    (user : String) (control : List String) :
    (∀ groups, getGroupsForUser user = .ok groups →
      (PassGatekeeper getGroupsForUser user control = true ↔
        ∃ x, x ∈ groups ∧ x ∈ control)) ∧
    (∀ e, getGroupsForUser user = .error e →
      PassGatekeeper getGroupsForUser user control = false) := by
  constructor
  · intro groups hok
    unfold PassGatekeeper
    rw [hok]
    simp only [List.any_eq_true, beq_iff_eq]
    constructor
    · rintro ⟨c, hc, g, hg, hcg⟩
      exact ⟨g, hg, hcg ▸ hc⟩
    · rintro ⟨x, hx, hxc⟩
      exact ⟨x, hxc, x, hx, rfl⟩
  · intro e herr
    unfold PassGatekeeper
    rw [herr]

theorem passGatekeeper_spec_witness :
    PassGatekeeper (fun _ => .ok ["staff", "alumni"]) "jdoe"
      ["admins", "staff"] = true ∧
    PassGatekeeper (fun _ => .error "ad down") "jdoe" ["admins"] = false := by
  constructor
  · exact ((passGatekeeper_spec (fun _ => .ok ["staff", "alumni"]) "jdoe"
      ["admins", "staff"]).1 ["staff", "alumni"] rfl).mpr
      ⟨"staff", by simp, by simp⟩
  · exact (passGatekeeper_spec (fun _ => .error "ad down") "jdoe"
      ["admins"]).2 "ad down" rfl

/-- C6: in machine-only mode, `Authenticate` performs exactly one terminal
action, fully determined by `MachineChecks`: a non-nil error yields a 400
response with the error message, `(true, nil)` invokes the downstream
handler, and `(false, nil)` yields a 400 response `Not authorized`; no
login redirect (interactive-session escalation) ever occurs in this mode. -/
theorem authenticate_terminal (env : Env)
    (checkToken validate : String → Bool × Option String) (r : Request) :
    (∀ p e, MachineChecks env checkToken validate r = (p, some e) →
      Authenticate env checkToken validate r = [Action.respond400 e]) ∧
    (MachineChecks env checkToken validate r = (true, none) →
      Authenticate env checkToken validate r = [Action.serveNext]) ∧
    (MachineChecks env checkToken validate r = (false, none) →
      Authenticate env checkToken validate r =
        [Action.respond400 "Not authorized"]) ∧
    Action.redirectToLogin ∉ Authenticate env checkToken validate r ∧
    (Authenticate env checkToken validate r).length = 1 := by
  unfold Authenticate
  rcases MachineChecks env checkToken validate r with ⟨p, e⟩
  rcases e with _ | e <;> cases p <;>
    simp

theorem authenticate_terminal_witness :
    Authenticate ⟨"1", ""⟩ (fun _ => (false, none)) (fun _ => (false, none))
      ⟨"", ""⟩ = [Action.serveNext] ∧
    Authenticate ⟨"", ""⟩ (fun _ => (false, none)) (fun _ => (false, none))
      ⟨"xyz", ""⟩ = [Action.respond400 "Bad Authorization header"] ∧
    Authenticate ⟨"", ""⟩ (fun _ => (false, none)) (fun _ => (false, none))
      ⟨"", ""⟩ = [Action.respond400 "Not authorized"] := by
  refine ⟨?_, ?_, ?_⟩
  · exact (authenticate_terminal ⟨"1", ""⟩ _ _ ⟨"", ""⟩).2.1 (by decide)
  · exact (authenticate_terminal ⟨"", ""⟩ _ _ ⟨"xyz", ""⟩).1 false
      "Bad Authorization header"
      (by simp [MachineChecks, checkLocal, checkBearerToken, splitOn_space_xyz]
          decide)
  · exact (authenticate_terminal ⟨"", ""⟩ _ _ ⟨"", ""⟩).2.2.1 (by decide)

/-- C7 counterexample: the allow-list is not a value loaded once at process
start. `os.Getenv("GEN_CONTROL_GROUPS")` is executed inside the per-request
handler body, so each request observes the process environment at the time
it is handled: two identical requests handled under different environment
values (here `"g"` and then `"x"`, with the same user resolving to group
`"g"`) receive different outcomes from the same wrapped handler. -/
theorem allowList_not_process_constant :
    AuthenticateUser ⟨"", "g"⟩ (fun _ => (false, none)) (fun _ => (false, none))
      (fun _ => true) (fun _ => "u") (fun _ => .ok ["g"]) ⟨"", ""⟩ ≠
    AuthenticateUser ⟨"", "x"⟩ (fun _ => (false, none)) (fun _ => (false, none))
      (fun _ => true) (fun _ => "u") (fun _ => .ok ["g"]) ⟨"", ""⟩ := by
  have e1 : AuthenticateUser ⟨"", "g"⟩ (fun _ => (false, none))
      (fun _ => (false, none)) (fun _ => true) (fun _ => "u")
      (fun _ => .ok ["g"]) ⟨"", ""⟩ = [Action.serveNext] := by
    simp [AuthenticateUser, MachineChecks, checkLocal, checkBearerToken,
      checkWSO2, PassGatekeeper, splitOn_commaSpace_g]
  have e2 : AuthenticateUser ⟨"", "x"⟩ (fun _ => (false, none))
      (fun _ => (false, none)) (fun _ => true) (fun _ => "u")
      (fun _ => .ok ["g"]) ⟨"", ""⟩ = [Action.respond400 "Not authorized"] := by
    simp [AuthenticateUser, MachineChecks, checkLocal, checkBearerToken,
      checkWSO2, PassGatekeeper, splitOn_commaSpace_x]
  rw [e1, e2]
  decide

/-- C7 (amended): the allow-list is re-read from `GEN_CONTROL_GROUPS` on
every request, and the group check of every request that reaches it uses
exactly the split of the environment value observed at request time — so
all requests handled under one environment value observe the same
allow-list. -/
theorem allowList_request_time (env : Env)
    (checkToken validate : String → Bool × Option String)
    (isAuthenticated : Request → Bool) (username : Request → String)
    (getGroupsForUser : String → Except String (List String)) (r : Request)
    (hm : MachineChecks env checkToken validate r = (false, none))
    (hs : isAuthenticated r = true) :
    AuthenticateUser env checkToken validate isAuthenticated username
        getGroupsForUser r =
      if PassGatekeeper getGroupsForUser (username r)
          (env.GEN_CONTROL_GROUPS.splitOn ", ")
      then [Action.serveNext] else [Action.respond400 "Not authorized"] := by
  unfold AuthenticateUser
  rw [hm]
  cases hP : PassGatekeeper getGroupsForUser (username r)
      (env.GEN_CONTROL_GROUPS.splitOn ", ") <;>
    simp [hs, hP]

theorem allowList_request_time_witness :
    AuthenticateUser ⟨"", "g"⟩ (fun _ => (false, none)) (fun _ => (false, none))
      (fun _ => true) (fun _ => "u") (fun _ => .ok ["g"]) ⟨"", ""⟩ =
      [Action.serveNext] := by
  have h := allowList_request_time ⟨"", "g"⟩ (fun _ => (false, none))
    (fun _ => (false, none)) (fun _ => true) (fun _ => "u")
    (fun _ => .ok ["g"]) ⟨"", ""⟩ (by decide) rfl
  rw [h]
  simp [PassGatekeeper, splitOn_commaSpace_g]

/-- C8: in user-capable mode, when the machine checks return `(false, nil)`
and no interactive session is established, the handler issues exactly a
login redirect, and its behavior is independent of the directory lookup —
`PassGatekeeper` is never consulted for that request. -/
theorem authenticateUser_redirect (env : Env)
    (checkToken validate : String → Bool × Option String)
    (isAuthenticated : Request → Bool) (username : Request → String)
    (gg gg' : String → Except String (List String)) (r : Request)
    (hm : MachineChecks env checkToken validate r = (false, none))
    (hs : isAuthenticated r = false) :
    AuthenticateUser env checkToken validate isAuthenticated username gg r =
      [Action.redirectToLogin] ∧
    AuthenticateUser env checkToken validate isAuthenticated username gg r =
      AuthenticateUser env checkToken validate isAuthenticated username gg' r := by
  have h1 : ∀ g : String → Except String (List String),
      AuthenticateUser env checkToken validate isAuthenticated username g r =
        [Action.redirectToLogin] := by
    intro g
    unfold AuthenticateUser
    rw [hm]
    simp [hs]
  exact ⟨h1 gg, (h1 gg).trans (h1 gg').symm⟩

theorem authenticateUser_redirect_witness :
    AuthenticateUser ⟨"", "g"⟩ (fun _ => (false, none)) (fun _ => (false, none))
      (fun _ => false) (fun _ => "u") (fun _ => .ok ["g"]) ⟨"", ""⟩ =
      [Action.redirectToLogin] :=
  (authenticateUser_redirect ⟨"", "g"⟩ (fun _ => (false, none))
    (fun _ => (false, none)) (fun _ => false) (fun _ => "u")
    (fun _ => .ok ["g"]) (fun _ => .error "ad down") ⟨"", ""⟩ (by decide)
    rfl).1

/-- C9: in user-capable mode every request produces exactly one response
action — one downstream-handler invocation, one 400 response, or one login
redirect — never zero and never two. -/
theorem authenticateUser_single_response (env : Env)
    (checkToken validate : String → Bool × Option String)
    (isAuthenticated : Request → Bool) (username : Request → String)
    (getGroupsForUser : String → Except String (List String)) (r : Request) :
    (AuthenticateUser env checkToken validate isAuthenticated username
      getGroupsForUser r).length = 1 := by
  unfold AuthenticateUser
  rcases MachineChecks env checkToken validate r with ⟨p, e⟩
  rcases e with _ | e <;> cases p <;>
    cases hA : isAuthenticated r <;>
    cases hP : PassGatekeeper getGroupsForUser (username r)
        ((env.GEN_CONTROL_GROUPS).splitOn ", ") <;>
    simp [hA, hP]

/-- C10: with `GEN_CONTROL_GROUPS` unset or empty, the control list passed
to `PassGatekeeper` is the one-element list containing the empty string —
not the empty list — so a user whose resolved directory groups include the
empty-string identifier is authorized, and the group check never sees an
empty allow-list. -/
theorem control_groups_empty_env (env : Env)
    (h : env.GEN_CONTROL_GROUPS = "") :
    env.GEN_CONTROL_GROUPS.splitOn ", " = [""] ∧
    env.GEN_CONTROL_GROUPS.splitOn ", " ≠ [] ∧
    (∀ (getGroupsForUser : String → Except String (List String)) user groups,
      getGroupsForUser user = .ok groups → "" ∈ groups →
      PassGatekeeper getGroupsForUser user
        (env.GEN_CONTROL_GROUPS.splitOn ", ") = true) ∧
    (∀ (checkToken validate : String → Bool × Option String)
      (isAuthenticated : Request → Bool) (username : Request → String)
      (getGroupsForUser : String → Except String (List String))
      (r : Request) groups,
      MachineChecks env checkToken validate r = (false, none) →
      isAuthenticated r = true →
      getGroupsForUser (username r) = .ok groups → "" ∈ groups →
      AuthenticateUser env checkToken validate isAuthenticated username
        getGroupsForUser r = [Action.serveNext]) := by
  rw [h, splitOn_commaSpace_empty]
  have hpass : ∀ (getGroupsForUser : String → Except String (List String))
      user groups, getGroupsForUser user = .ok groups → "" ∈ groups →
      PassGatekeeper getGroupsForUser user [""] = true := by
    intro getGroupsForUser user groups hok hmem
    unfold PassGatekeeper
    rw [hok]
    simp only [List.any_eq_true, beq_iff_eq]
    exact ⟨"", by simp, "", hmem, rfl⟩
  refine ⟨rfl, by simp, hpass, ?_⟩
  intro checkToken validate isAuthenticated username getGroupsForUser r groups
    hm hs hok hmem
  unfold AuthenticateUser
  rw [hm]
  simp only [Bool.not_false, if_false, if_true, hs]
  rw [h, splitOn_commaSpace_empty]
  simp [hpass getGroupsForUser (username r) groups hok hmem]

theorem control_groups_empty_env_witness :
    PassGatekeeper (fun _ => .ok ["", "students"]) "u"
      ((Env.mk "" "").GEN_CONTROL_GROUPS.splitOn ", ") = true ∧
    AuthenticateUser ⟨"", ""⟩ (fun _ => (false, none)) (fun _ => (false, none))
      (fun _ => true) (fun _ => "u") (fun _ => .ok ["", "students"])
      ⟨"", ""⟩ = [Action.serveNext] := by
  have h := control_groups_empty_env ⟨"", ""⟩ rfl
  constructor
  · exact h.2.2.1 (fun _ => .ok ["", "students"]) "u" ["", "students"] rfl
      (by simp)
  · exact h.2.2.2 (fun _ => (false, none)) (fun _ => (false, none))
      (fun _ => true) (fun _ => "u") (fun _ => .ok ["", "students"])
      ⟨"", ""⟩ ["", "students"] (by decide) rfl rfl (by simp)

end Authmiddleware
